import Mathlib

/-!
Shallow embedding of `service/service.py` from sesam-community/sharepointonline-sesam.

The service is a Flask gateway in front of a SharePoint list store.  The parts
embedded here are the ones the verified claims are about:

* `post_entities` (inner function of the `/send-to-list` route): per-entity
  reconciliation — the `_deleted` skip, the `Keys` projection with Python
  `str()` coercion, the `__metadata` type discriminator, the existence probe by
  `ID` with its not-found classification, the create/update/delete dispatch,
  per-entity error wrapping, and batch abort on the first error;
* the `/get-from-list/<list_name>` reader with its `.top(LIST_SIZE)` page cap
  and its streaming JSON-array generator;
* the `/get-site-users` reader, whose `user_col` local is assigned only when
  authentication succeeds;
* the module-level startup guard that exits when URL/USERNAME/PASSWORD are
  missing or empty.

Remote I/O (the Office 365 client) is represented by an oracle (`EntityRemote`)
describing, per entity, what the remote store would answer; the calls the
service issues are collected in an explicit `RemoteCall` trace, so the theorems
can speak about which remote mutations are dispatched and with which payloads.
-/

namespace SpService

/-- Python/JSON values as they occur in request entities: `None`, booleans,
integers, strings and lists.  (Nested objects never matter to the embedded
code paths: entity fields are only tested for truthiness, compared to `None`,
stringified, or — for `Keys` — iterated as a list of key names.) -/
inductive Value : Type
  | vNull : Value
  | vBool : Bool → Value
  | vInt : Int → Value
  | vStr : String → Value
  | vList : List Value → Value

/-- Python truthiness (`bool(v)`): `None` is falsy, `False` is falsy, `0` is
falsy, the empty string is falsy, the empty list is falsy; everything else is
truthy. -/
def truthy : Value → Bool
  | .vNull => false
  | .vBool b => b
  | .vInt n => n != 0
  | .vStr s => s != ""
  | .vList xs => !xs.isEmpty

/-- `v` is the Python `None`. -/
def isNull : Value → Bool
  | .vNull => true
  | _ => false

mutual

/-- Python `repr(v)` over the embedded value domain (string escaping inside
`repr` of a string is not modelled; no claim evaluates it). -/
def pyRepr : Value → String
  | .vNull => "None"
  | .vBool true => "True"
  | .vBool false => "False"
  | .vInt n => toString n
  | .vStr s => "\x27" ++ s ++ "\x27"
  | .vList xs => "[" ++ pyReprList xs ++ "]"

/-- Comma-joined `repr`s of a list's elements, as inside Python `repr([...])`. -/
def pyReprList : List Value → String
  | [] => ""
  | [x] => pyRepr x
  | x :: y :: xs => pyRepr x ++ ", " ++ pyReprList (y :: xs)

end

/-- Python `str(v)`: identity on strings, `repr` otherwise — this is the lossy
string coercion `str(entity[key])` applied to every transmitted value. -/
def pyStr : Value → String
  | .vNull => "None"
  | .vBool true => "True"
  | .vBool false => "False"
  | .vInt n => toString n
  | .vStr s => s
  | .vList xs => "[" ++ pyReprList xs ++ "]"

mutual

/-- `json.dumps` of a value (default separators; string escaping not
modelled — no claim evaluates it on strings needing escapes). -/
def jsonVal : Value → String
  | .vNull => "null"
  | .vBool true => "true"
  | .vBool false => "false"
  | .vInt n => toString n
  | .vStr s => "\x22" ++ s ++ "\x22"
  | .vList xs => "[" ++ jsonValList xs ++ "]"

/-- Comma-joined `json.dumps` of a list's elements. -/
def jsonValList : List Value → String
  | [] => ""
  | [x] => jsonVal x
  | x :: y :: xs => jsonVal x ++ ", " ++ jsonValList (y :: xs)

end

/-- An entity (a Python `dict` with string keys), as an association list in
insertion order; keys are unique in any dict that Python ever builds, and
lookups take the first match. -/
abbrev Entity := List (String × Value)

/-- `entity.get(k)` / `entity[k]` lookup: `some v` when the key is present. -/
def pyGet (e : Entity) (k : String) : Option Value :=
  (e.find? (fun kv => kv.1 == k)).map (·.2)

/-- `entity.get(k)` with Python's default `None` for a missing key. -/
def pyGetD (e : Entity) (k : String) : Value :=
  (pyGet e k).getD .vNull

/-- Python `dict` assignment `d[k] = v`: overwrite in place when the key
exists, append otherwise (insertion-order semantics). -/
def dictInsert {α : Type} (d : List (String × α)) (k : String) (v : α) : List (String × α) :=
  if d.any (fun kv => kv.1 == k) then
    d.map (fun kv => if kv.1 == k then (k, v) else kv)
  else d ++ [(k, v)]

/-- `json.dumps(entity)` over the embedded domain. -/
def jsonDumps (e : Entity) : String :=
  "\x7b" ++ String.intercalate ", "
    (e.map (fun kv => "\x22" ++ kv.1 ++ "\x22: " ++ jsonVal kv.2)) ++ "\x7d"

/-- The environment-derived configuration the reconciler reads:
`LIST_NAME` (key of the target list's title), `LIST_ITEM_NAME` (key of the
`ListItemEntityTypeFullName` discriminator) and `PROCESS_DELETED`. -/
structure Config where
  listNameKey : String
  listItemKey : String
  processDeleted : Bool

/-- The defaults from the source: `SP_LIST_NAME` defaults to `"ListName"`,
`SP_LIST_ITEM_NAME` to `"ListItemEntityTypeFullName"`, and
`PROCESS_DELETED_ENTITIES` to `'true'`. -/
def defaultConfig : Config :=
  { listNameKey := "ListName"
    listItemKey := "ListItemEntityTypeFullName"
    processDeleted := true }

/-- `SP_LIST_SIZE` default. -/
def defaultListSize : Nat := 100

/-- The exception raised by the Office 365 client on a failed item fetch, as
the probe's `except` clause sees it: an optional `code` attribute and an
optional `message` attribute (`none` models `hasattr` being false). -/
structure ProbeExc where
  code : Option String
  message : Option String

/-- The `code` value the probe recognises as item-not-found. -/
def notFoundCode : String := "-2147024809, System.ArgumentException"

/-- The `message` value the probe recognises as item-not-found. -/
def notFoundMessage : String :=
  "Item does not exist. It may have been deleted by another user."

/-- The probe's classification of a fetch exception:
`(hasattr(ie, 'code') and ie.code == ...) or (hasattr(ie, 'message') and ie.message == ...)`. -/
def isNotFound (ex : ProbeExc) : Bool :=
  ex.code == some notFoundCode || ex.message == some notFoundMessage

/-- Outcome of the remote item fetch issued by the existence probe. -/
inductive ProbeOutcome : Type
  | found : ProbeOutcome
  | exc : ProbeExc → ProbeOutcome

/-- Per-entity oracle for the remote store: what the probe would answer, whether
the create `execute_query` succeeds, and the HTTP status of the delete/update
response (checked by `raise_for_status`). -/
structure EntityRemote where
  probe : ProbeOutcome
  createOk : Bool
  mutationStatus : Nat

/-- A value in the outbound `item_properties` mapping: either the nested
`{'type': ...}` object stored under `'__metadata'`, or a coerced string. -/
inductive PropValue : Type
  | metaType : Value → PropValue
  | strVal : String → PropValue

/-- One remote call issued by the reconciler, with its payload. -/
inductive RemoteCall : Type
  | probe : Value → Value → RemoteCall
  | create : Value → List (String × PropValue) → RemoteCall
  | update : Value → Value → List (String × String) → RemoteCall
  | delete : Value → Value → RemoteCall

/-- The cause of a failure inside the reconciler's `try` block. -/
inductive Cause : Type
  | keyError : String → Cause
  | keysNotAList : Cause
  | keyNotAString : Value → Cause
  | probeFailure : ProbeExc → Cause
  | createFailed : Cause
  | httpError : Nat → Cause

/-- An error escaping `post_entities`: a bare `KeyError` from a subscript
outside the `try` block, the wrapped per-entity exception built by the
`except` clause (carrying the cause and the entity that is serialised into the
message), or the authentication failure raised before the loop. -/
inductive Err : Type
  | keyError : String → Err
  | aggregated : Cause → Entity → Err
  | authError : Err

/-- The dict comprehension `{key: str(entity[key]) for key in keys_to_send}`:
walk the keys in order, failing like Python does on a missing field
(`KeyError`) or a non-string key (the embedded entities have string keys
only). -/
def buildValues (e : Entity) : List Value → List (String × String) →
    Except Cause (List (String × String))
  | [], acc => .ok acc
  | .vStr k :: rest, acc =>
    match pyGet e k with
    | none => .error (.keyError k)
    | some v => buildValues e rest (dictInsert acc k (pyStr v))
  | v :: _, _ => .error (.keyNotAString v)

/-- `keys_to_send = entity['Keys']` followed by the projection comprehension.
`Keys` is required to be a JSON list (the documented shape); any other value
is modelled as the type error Python would raise while iterating/indexing. -/
def valuesToSend (e : Entity) : Except Cause (List (String × String)) :=
  match pyGet e "Keys" with
  | none => .error (.keyError "Keys")
  | some (.vList ks) => buildValues e ks []
  | some _ => .error .keysNotAList

/-- `item_properties_metadata`: `{}` when `entity.get(LIST_ITEM_NAME)` is
`None` (key absent or value null), else `{'__metadata': {'type': name}}`. -/
def metadataProps (cfg : Config) (e : Entity) : List (String × PropValue) :=
  match pyGetD e cfg.listItemKey with
  | .vNull => []
  | v => [("__metadata", .metaType v)]

/-- `item_properties = {**item_properties_metadata, **values_to_send}`:
start from the metadata dict and apply every projected entry with Python
dict-merge (later wins) semantics. -/
def itemProperties (meta : List (String × PropValue)) (vals : List (String × String)) :
    List (String × PropValue) :=
  vals.foldl (fun d kv => dictInsert d kv.1 (.strVal kv.2)) meta

/-- `response.raise_for_status()` of the requests library: raises exactly for
4xx and 5xx statuses. -/
def raise_for_status (status : Nat) : Option Cause :=
  if 400 ≤ status ∧ status < 600 then some (.httpError status) else none

/-- The existence probe: when `entity.get('ID')` is truthy, fetch the item by
id (one remote call) and either find it, classify a not-found exception as
"no existing item", or fail hard; with a falsy `ID` no call is made and there
is no existing item.  The `Bool` is the truthiness of `existing_item`. -/
def probeStep (listName idv : Value) (r : EntityRemote) :
    List RemoteCall × Except Cause Bool :=
  if truthy idv then
    match r.probe with
    | .found => ([.probe listName idv], .ok true)
    | .exc ex =>
      if isNotFound ex then ([.probe listName idv], .ok false)
      else ([.probe listName idv], .error (.probeFailure ex))
  else ([], .ok false)

/-- The dispatch after the probe: `if not existing_item:` create with the
metadata-decorated properties; else delete when
`entity.get('SHOULD_DELETE') is not None and bool(entity.get('SHOULD_DELETE'))`,
otherwise update with `values_to_send`; delete/update responses go through
`raise_for_status`. -/
def branchStep (cfg : Config) (e : Entity) (listName : Value)
    (vals : List (String × String)) (r : EntityRemote) (existing : Bool) :
    List RemoteCall × Option Cause :=
  if !existing then
    ([.create listName (itemProperties (metadataProps cfg e) vals)],
     if r.createOk then none else some .createFailed)
  else
    if !(isNull (pyGetD e "SHOULD_DELETE")) && truthy (pyGetD e "SHOULD_DELETE") then
      ([.delete listName (pyGetD e "ID")], raise_for_status r.mutationStatus)
    else
      ([.update listName (pyGetD e "ID") vals], raise_for_status r.mutationStatus)

/-- The body of the reconciler's `try` block for one entity: build metadata and
the `Keys` projection, run the existence probe, then dispatch. -/
def reconcileTry (cfg : Config) (e : Entity) (listName : Value) (r : EntityRemote) :
    List RemoteCall × Option Cause :=
  match valuesToSend e with
  | .error c => ([], some c)
  | .ok vals =>
    match probeStep listName (pyGetD e "ID") r with
    | (cs, .error c) => (cs, some c)
    | (cs, .ok existing) =>
      let step := branchStep cfg e listName vals r existing
      (cs ++ step.1, step.2)

/-- One iteration of the `for` loop of `post_entities`: the `_deleted`
subscript (a bare `KeyError` when the field is missing), the
`PROCESS_DELETED` skip — whose debug f-string eagerly evaluates the
`entity['_id']` subscript outside the `try`, so a skipped entity lacking
`_id` raises a bare `KeyError` instead — the `entity[LIST_NAME]` subscript
(also outside the `try`), then the `try` block whose failures the `except`
clause wraps with the serialised entity. -/
def processEntity (cfg : Config) (e : Entity) (r : EntityRemote) :
    List RemoteCall × Option Err :=
  match pyGet e "_deleted" with
  | none => ([], some (.keyError "_deleted"))
  | some d =>
    if truthy d && !cfg.processDeleted then
      match pyGet e "_id" with
      | none => ([], some (.keyError "_id"))
      | some _ => ([], none)
    else
      match pyGet e cfg.listNameKey with
      | none => ([], some (.keyError cfg.listNameKey))
      | some listName =>
        match reconcileTry cfg e listName r with
        | (cs, none) => (cs, none)
        | (cs, some c) => (cs, some (.aggregated c e))

/-- The `for` loop of `post_entities`: entities in submission order, stopping
at the first escaping error; the trace keeps the calls already issued. -/
def runEntities (cfg : Config) : List (Entity × EntityRemote) →
    List RemoteCall × Option Err
  | [] => ([], none)
  | (e, r) :: rest =>
    match processEntity cfg e r with
    | (cs, some er) => (cs, some er)
    | (cs, none) =>
      let tail := runEntities cfg rest
      (cs ++ tail.1, tail.2)

/-- `post_entities(entities)`: authenticate once (raising when no token is
acquired), then run the loop. -/
def post_entities (cfg : Config) (authOk : Bool)
    (batch : List (Entity × EntityRemote)) : List RemoteCall × Option Err :=
  if authOk then runEntities cfg batch else ([], some .authError)

/-- The literal success body of the route. -/
def successBody : String := "\x7b\x27status\x27: \x27success\x27\x7d"

/-- What the HTTP framework sees from the route: the 200 response, or an
exception propagating out of the handler. -/
inductive HttpResult : Type
  | ok : Nat → String → HttpResult
  | exception : Err → HttpResult

/-- The `/send-to-list` route: run `post_entities` and, only when it returns
without raising, answer `200` with the literal success body. -/
def send_to_list (cfg : Config) (authOk : Bool)
    (batch : List (Entity × EntityRemote)) : List RemoteCall × HttpResult :=
  match post_entities cfg authOk batch with
  | (cs, some er) => (cs, .exception er)
  | (cs, none) => (cs, .ok 200 successBody)

/-- The streaming generator body shared by both readers: for each entity, a
`","` chunk first when its index is positive, then its `json.dumps`. -/
def generateBody (idx : Nat) : List Entity → List String
  | [] => []
  | e :: rest =>
    (if idx > 0 then [",", jsonDumps e] else [jsonDumps e]) ++ generateBody (idx + 1) rest

/-- `generate(entities)`: `"["`, the comma-separated `json.dumps` chunks, `"]"`. -/
def generate (entities : List Entity) : List String :=
  ["["] ++ generateBody 0 entities ++ ["]"]

/-- `.top(cap)` on a remote collection: the server returns at most the first
`cap` items. -/
def top {α : Type} (cap : Nat) (collection : List α) : List α :=
  collection.take cap

/-- Result of a list read: the streamed chunk sequence, or `abort(500)`. -/
inductive ListReadResult : Type
  | stream : List String → ListReadResult
  | aborted : Nat → ListReadResult

/-- The `/get-from-list/<list_name>` route: on successful authentication,
fetch at most `cap` (`LIST_SIZE`) items and stream them as a JSON array;
otherwise `abort(500)`. -/
def get_from_list (cap : Nat) (authOk : Bool) (collection : List Entity) :
    ListReadResult :=
  if authOk then .stream (generate (top cap collection))
  else .aborted 500

/-- Result of the `/get-site-users` route: the streamed chunk sequence, or the
`UnboundLocalError` Python raises when the named local is read unassigned. -/
inductive SiteUsersResult : Type
  | stream : List String → SiteUsersResult
  | unboundLocal : String → SiteUsersResult

/-- The `/get-site-users` route: `user_col` is assigned only inside the
`if ctx_auth.acquire_token_for_user(...)` branch, yet the trailing
`return Response(generate(user_col), ...)` reads it unconditionally. -/
def get_site_users (authOk : Bool) (siteUsers : List Entity) : SiteUsersResult :=
  let user_col : Option (List Entity) := if authOk then some siteUsers else none
  match user_col with
  | some us => .stream (generate us)
  | none => .unboundLocal "user_col"

/-- Python falsiness of an `os.environ.get` result: missing (`None`) or empty. -/
def strFalsy : Option String → Bool
  | none => true
  | some s => s == ""

/-- Outcome of module startup: the fatal `exit(1)` or a process listening on
the configured port. -/
inductive StartupOutcome : Type
  | exitFatal : Nat → StartupOutcome
  | listening : Nat → StartupOutcome

/-- The module-level guard: `if not URL or not USERNAME or not PASSWORD:`
log and `exit(1)`; only otherwise does the process go on to bind a
listener on `PORT`. -/
def startup (url username password : Option String) (port : Nat) : StartupOutcome :=
  if strFalsy url || strFalsy username || strFalsy password then .exitFatal 1
  else .listening port

/-- A call that mutates the remote store (anything but the probe's read). -/
def isMutation : RemoteCall → Bool
  | .probe _ _ => false
  | _ => true

/-- The mutations of a call trace, probe reads filtered out. -/
def mutationsOf (cs : List RemoteCall) : List RemoteCall :=
  cs.filter isMutation

/-- Modelled from the spec's words (§4.2 step 3, for the refinement part of
the projection claim): "the projection of `entity` over `entity.Keys`,
converting every value to its string representation". -/
def specProjection (e : Entity) (keys : List String) : List (String × String) :=
  keys.map (fun k => (k, pyStr (pyGetD e k)))

/-- Sample entity: well-formed, no `ID`, one projected field. -/
def entOk : Entity :=
  [("_deleted", .vBool false), ("ListName", .vStr "Tasks"),
   ("Keys", .vList [.vStr "Title"]), ("Title", .vStr "A")]

/-- Sample entity: missing the required `Keys` field. -/
def entNoKeys : Entity :=
  [("_deleted", .vBool false), ("ListName", .vStr "Tasks")]

/-- Sample entity: missing the `_deleted` field altogether. -/
def entNoDeleted : Entity :=
  [("ListName", .vStr "Tasks"), ("Keys", .vList [.vStr "Title"]),
   ("Title", .vStr "A")]

/-- Sample entity: soft-deleted, carrying the `_id` the debug line reads. -/
def entDeleted : Entity :=
  [("_id", .vStr "task-1"), ("_deleted", .vBool true), ("ListName", .vStr "Tasks"),
   ("Keys", .vList [.vStr "Title"]), ("Title", .vStr "A")]

/-- Sample entity: soft-deleted but lacking the `_id` field. -/
def entDeletedNoId : Entity :=
  [("_deleted", .vBool true), ("ListName", .vStr "Tasks"),
   ("Keys", .vList [.vStr "Title"]), ("Title", .vStr "A")]

/-- Sample entity: existing `ID` and an explicit `SHOULD_DELETE`. -/
def entShouldDelete : Entity :=
  [("_deleted", .vBool false), ("ListName", .vStr "Tasks"),
   ("Keys", .vList [.vStr "Title"]), ("Title", .vStr "B"),
   ("ID", .vInt 7), ("SHOULD_DELETE", .vBool true)]

/-- Sample entity: type discriminator given, two projected fields, one extra
field that must never be transmitted. -/
def entProj : Entity :=
  [("_deleted", .vBool false), ("ListName", .vStr "Tasks"),
   ("ListItemEntityTypeFullName", .vStr "SP.Data.TasksListItem"),
   ("Keys", .vList [.vStr "Title", .vStr "Num"]),
   ("Title", .vStr "A"), ("Num", .vInt 3), ("Extra", .vStr "x")]

/-- Sample entity: `ID` field present but falsy (`0`). -/
def entFalsyId : Entity :=
  [("_deleted", .vBool false), ("ListName", .vStr "Tasks"),
   ("Keys", .vList [.vStr "Title"]), ("Title", .vStr "A"), ("ID", .vInt 0)]

/-- Sample entity: `ID` present and truthy (used with probe-exception oracles). -/
def entWithId : Entity :=
  [("_deleted", .vBool false), ("ListName", .vStr "Tasks"),
   ("Keys", .vList [.vStr "Title"]), ("Title", .vStr "A"), ("ID", .vInt 7)]

/-- Oracle: the probe finds the item; mutations succeed. -/
def remoteFound : EntityRemote :=
  { probe := .found, createOk := true, mutationStatus := 204 }

/-- Oracle: the probe raises the recognised not-found code. -/
def remoteNotFound : EntityRemote :=
  { probe := .exc { code := some notFoundCode, message := none },
    createOk := true, mutationStatus := 204 }

/-- Oracle: the probe raises an unrecognised error. -/
def remoteProbeError : EntityRemote :=
  { probe := .exc { code := some "500, System.Net.WebException", message := none },
    createOk := true, mutationStatus := 204 }

/-! ## Helper lemmas -/

/-- An entity that passes the `_deleted` guard and the `LIST_NAME` subscript is
processed by the `try` block, whose cause (if any) is wrapped with the
entity. -/
theorem processEntity_eq (cfg : Config) (e : Entity) (r : EntityRemote) (d ln : Value)
    (hd : pyGet e "_deleted" = some d)
    (hskip : (truthy d && !cfg.processDeleted) = false)
    (hln : pyGet e cfg.listNameKey = some ln) :
    processEntity cfg e r =
      ((reconcileTry cfg e ln r).1,
       (reconcileTry cfg e ln r).2.map (fun c => Err.aggregated c e)) := by
  simp only [processEntity, hd, hskip, hln, Bool.false_eq_true, if_false]
  cases h : reconcileTry cfg e ln r with
  | mk cs oc => cases oc <;> simp

/-- The loop over a prefix of entities that all succeed: their call traces are
emitted in order and processing continues with the rest of the batch. -/
theorem runEntities_append_ok (cfg : Config) (pre rest : List (Entity × EntityRemote))
    (hpre : ∀ p ∈ pre, (processEntity cfg p.1 p.2).2 = none) :
    runEntities cfg (pre ++ rest) =
      ((pre.map (fun p => (processEntity cfg p.1 p.2).1)).flatten ++ (runEntities cfg rest).1,
       (runEntities cfg rest).2) := by
  induction pre with
  | nil => simp
  | cons p pre ih =>
    obtain ⟨e, r⟩ := p
    have hp := hpre (e, r) (by simp)
    cases hpe : processEntity cfg e r with
    | mk cs oc =>
      rw [hpe] at hp
      simp only at hp
      subst hp
      simp only [List.cons_append, runEntities, hpe, List.map_cons, List.flatten_cons,
        List.append_assoc, List.append_eq]
      rw [ih (fun q hq => hpre q (by simp [hq]))]

/-- After the first element the generator always emits a `","` chunk before
each serialised entity. -/
theorem generateBody_pos (l : List Entity) (i : Nat) :
    generateBody (i + 1) l = (l.map (fun e => [",", jsonDumps e])).flatten := by
  induction l generalizing i with
  | nil => simp [generateBody]
  | cons e rest ih => simp [generateBody, ih]

/-- The comma-prefixed chunk blocks of a nonempty tail are one leading `","`
followed by the comma-interspersed serialisations. -/
theorem flatten_comma_blocks (b : Entity) (t : List Entity) :
    ((b :: t).map (fun e => [",", jsonDumps e])).flatten =
      "," :: List.intersperse "," ((b :: t).map jsonDumps) := by
  induction t generalizing b with
  | nil => simp
  | cons c t ih => simp only [List.map_cons, List.flatten_cons] at ih ⊢; rw [ih c]; simp

/-- The generator body is exactly the comma-interspersed serialisations. -/
theorem generateBody_zero (l : List Entity) :
    generateBody 0 l = List.intersperse "," (l.map jsonDumps) := by
  cases l with
  | nil => rfl
  | cons e rest =>
    have h1 : generateBody 0 (e :: rest) = jsonDumps e :: generateBody 1 rest := by
      simp [generateBody]
    have h2 := generateBody_pos rest 0
    norm_num at h2
    rw [h1, h2]
    cases rest with
    | nil => simp
    | cons b t =>
      rw [flatten_comma_blocks b t]
      simp

/-- Removing the `ID` field leaves every other lookup unchanged. -/
theorem pyGet_filterID (e : Entity) (k : String) (hk : k ≠ "ID") :
    pyGet (e.filter (fun kv => kv.1 != "ID")) k = pyGet e k := by
  induction e with
  | nil => rfl
  | cons kv rest ih =>
    simp only [pyGet] at ih ⊢
    by_cases h1 : kv.1 = "ID"
    · have hf : (kv.1 != "ID") = false := by simp [h1]
      have hb : (kv.1 == k) = false := by
        simp only [h1, beq_eq_false_iff_ne]
        exact Ne.symm hk
      simp only [List.filter_cons, hf, Bool.false_eq_true, if_false,
        List.find?_cons, hb]
      exact ih
    · have hf : (kv.1 != "ID") = true := by simp [h1]
      by_cases h2 : kv.1 = k
      · have hb : (kv.1 == k) = true := by simp [h2]
        simp [List.filter_cons, hf, List.find?_cons, hb]
      · have hb : (kv.1 == k) = false := by simp [h2]
        simp only [List.filter_cons, hf, if_true, List.find?_cons, hb]
        exact ih

/-- After removing the `ID` field, looking up `ID` finds nothing. -/
theorem pyGet_filterID_id (e : Entity) :
    pyGet (e.filter (fun kv => kv.1 != "ID")) "ID" = none := by
  induction e with
  | nil => rfl
  | cons kv rest ih =>
    simp only [pyGet] at ih ⊢
    by_cases h1 : kv.1 = "ID"
    · have hf : (kv.1 != "ID") = false := by simp [h1]
      simp only [List.filter_cons, hf, Bool.false_eq_true, if_false]
      exact ih
    · have hf : (kv.1 != "ID") = true := by simp [h1]
      have hb : (kv.1 == "ID") = false := by simp [h1]
      simp only [List.filter_cons, hf, if_true, List.find?_cons, hb]
      exact ih

/-- The `Keys` projection does not change when the `ID` field is removed,
provided `ID` itself is not a projected key. -/
theorem buildValues_filterID (e : Entity) (ks : List Value) (acc : List (String × String))
    (hks : Value.vStr "ID" ∉ ks) :
    buildValues (e.filter (fun kv => kv.1 != "ID")) ks acc = buildValues e ks acc := by
  induction ks generalizing acc with
  | nil => rfl
  | cons v rest ih =>
    have hrest : Value.vStr "ID" ∉ rest := fun h => hks (List.mem_cons_of_mem _ h)
    cases v with
    | vStr k =>
      have hk : k ≠ "ID" := by
        intro h
        subst h
        exact hks (List.mem_cons_self _ _)
      simp only [buildValues, pyGet_filterID e k hk]
      cases pyGet e k with
      | none => rfl
      | some v0 => exact ih _ hrest
    | vNull => rfl
    | vBool b => rfl
    | vInt n => rfl
    | vList xs => rfl

/-- `valuesToSend` does not change when the `ID` field is removed, provided
`ID` is not a projected key. -/
theorem valuesToSend_filterID (e : Entity) (ks : List Value)
    (hkeys : pyGet e "Keys" = some (.vList ks))
    (hid : Value.vStr "ID" ∉ ks) :
    valuesToSend (e.filter (fun kv => kv.1 != "ID")) = valuesToSend e := by
  have h1 : pyGet (e.filter (fun kv => kv.1 != "ID")) "Keys" = pyGet e "Keys" :=
    pyGet_filterID e "Keys" (by decide)
  rw [valuesToSend, valuesToSend, h1, hkeys]
  exact buildValues_filterID e ks [] hid

/-- Inserting an absent key appends it, preserving insertion order. -/
theorem dictInsert_append {α : Type} (d : List (String × α)) (k : String) (v : α)
    (h : k ∉ d.map Prod.fst) :
    dictInsert d k v = d ++ [(k, v)] := by
  have hany : (d.any fun kv => kv.1 == k) = false := by
    apply List.any_eq_false.mpr
    intro kv hkv
    simp only [beq_iff_eq]
    intro hEq
    apply h
    rw [← hEq]
    exact List.mem_map_of_mem Prod.fst hkv
  simp [dictInsert, hany]

/-- Unfolding: a present key steps the comprehension with its coerced value. -/
theorem buildValues_cons_some (e : Entity) (k : String) (v : Value)
    (rest : List Value) (acc : List (String × String)) (hp : pyGet e k = some v) :
    buildValues e (.vStr k :: rest) acc =
      buildValues e rest (dictInsert acc k (pyStr v)) := by
  simp [buildValues, hp]

/-- Unfolding: a missing key raises `KeyError`. -/
theorem buildValues_cons_none (e : Entity) (k : String)
    (rest : List Value) (acc : List (String × String)) (hp : pyGet e k = none) :
    buildValues e (.vStr k :: rest) acc = .error (.keyError k) := by
  simp [buildValues, hp]

/-- With distinct keys starting from a disjoint accumulator, the projection
comprehension appends its entries in key order. -/
theorem buildValues_ok_eq (e : Entity) : ∀ (ks : List String)
    (acc vs : List (String × String)),
    ks.Nodup → (∀ k ∈ ks, k ∉ acc.map Prod.fst) →
    buildValues e (ks.map .vStr) acc = .ok vs →
    vs = acc ++ specProjection e ks := by
  intro ks
  induction ks with
  | nil =>
    intro acc vs _ _ h
    simp only [List.map_nil, buildValues] at h
    cases h
    simp [specProjection]
  | cons k rest ih =>
    intro acc vs hnodup hdisj h
    rw [List.map_cons] at h
    cases hp : pyGet e k with
    | none => rw [buildValues_cons_none e k _ _ hp] at h; simp at h
    | some v =>
      rw [buildValues_cons_some e k v _ _ hp] at h
      have hk : k ∉ acc.map Prod.fst := hdisj k (List.mem_cons_self _ _)
      rw [dictInsert_append acc k (pyStr v) hk] at h
      have hdisj' : ∀ k' ∈ rest, k' ∉ (acc ++ [(k, pyStr v)]).map Prod.fst := by
        intro k' hk'
        simp only [List.map_append, List.mem_append, List.map_cons, List.map_nil,
          List.mem_singleton]
        rintro (hm | hm)
        · exact hdisj k' (List.mem_cons_of_mem _ hk') hm
        · exact (List.nodup_cons.mp hnodup).1 (hm ▸ hk')
      have hres := ih (acc ++ [(k, pyStr v)]) vs (List.nodup_cons.mp hnodup).2 hdisj' h
      rw [hres, List.append_assoc]
      simp [specProjection, pyGetD, hp]

/-- The keys of a projection-successful comprehension are all present in the
entity. -/
theorem buildValues_ok_eq_nil (e : Entity) (ks : List String)
    (vs : List (String × String)) (hnodup : ks.Nodup)
    (h : buildValues e (ks.map .vStr) [] = .ok vs) :
    vs = specProjection e ks := by
  have := buildValues_ok_eq e ks [] vs hnodup (by simp) h
  simpa using this

/-- The projection's keys are exactly the `Keys` list. -/
theorem specProjection_fst (e : Entity) (ks : List String) :
    (specProjection e ks).map Prod.fst = ks := by
  induction ks with
  | nil => rfl
  | cons k rest ih => simp only [specProjection, List.map_cons] at ih ⊢; rw [ih]

/-- Folding the projected entries over a dict with disjoint keys appends
them as coerced strings. -/
theorem itemProperties_append : ∀ (vals : List (String × String))
    (meta : List (String × PropValue)),
    (vals.map Prod.fst).Nodup →
    (∀ kv ∈ vals, kv.1 ∉ meta.map Prod.fst) →
    itemProperties meta vals =
      meta ++ vals.map (fun kv => (kv.1, PropValue.strVal kv.2)) := by
  intro vals
  induction vals with
  | nil => intro meta _ _; simp [itemProperties]
  | cons kv rest ih =>
    intro meta hnodup hdisj
    have hk : kv.1 ∉ meta.map Prod.fst := hdisj kv (List.mem_cons_self _ _)
    have step : itemProperties meta (kv :: rest) =
        itemProperties (dictInsert meta kv.1 (.strVal kv.2)) rest := rfl
    rw [step, dictInsert_append meta kv.1 (.strVal kv.2) hk]
    have hnd : (kv.1 :: rest.map Prod.fst).Nodup := by simpa using hnodup
    have hnd1 : kv.1 ∉ rest.map Prod.fst := (List.nodup_cons.mp hnd).1
    have hnd2 : (rest.map Prod.fst).Nodup := (List.nodup_cons.mp hnd).2
    have hdisj' : ∀ kv' ∈ rest,
        kv'.1 ∉ (meta ++ [(kv.1, PropValue.strVal kv.2)]).map Prod.fst := by
      intro kv' hkv'
      simp only [List.map_append, List.mem_append, List.map_cons, List.map_nil,
        List.mem_singleton]
      rintro (hm | hm)
      · exact hdisj kv' (List.mem_cons_of_mem _ hkv') hm
      · exact hnd1 (hm ▸ List.mem_map_of_mem Prod.fst hkv')
    rw [ih (meta ++ [(kv.1, PropValue.strVal kv.2)]) hnd2 hdisj']
    simp

/-- `v = None` characterisation of `isNull`. -/
theorem isNull_iff (v : Value) : isNull v = true ↔ v = .vNull := by
  cases v <;> simp [isNull]

/-- When the discriminator value is `None`, the metadata dict is empty. -/
theorem metadataProps_of_null (cfg : Config) (e : Entity)
    (h : pyGetD e cfg.listItemKey = .vNull) :
    metadataProps cfg e = [] := by
  simp [metadataProps, h]

/-- When the discriminator value is given (non-`None`), the metadata dict is
the single `__metadata` entry. -/
theorem metadataProps_of_nonnull (cfg : Config) (e : Entity)
    (h : isNull (pyGetD e cfg.listItemKey) = false) :
    metadataProps cfg e =
      [("__metadata", .metaType (pyGetD e cfg.listItemKey))] := by
  cases hv : pyGetD e cfg.listItemKey with
  | vNull => rw [hv] at h; simp [isNull] at h
  | vBool b => simp [metadataProps, hv]
  | vInt n => simp [metadataProps, hv]
  | vStr s => simp [metadataProps, hv]
  | vList xs => simp [metadataProps, hv]

/-- Payload characterisation of the trace: every create call carries exactly
the metadata-decorated `item_properties`, and every update call carries
exactly `values_to_send`. -/
theorem trace_payloads (cfg : Config) (e : Entity) (r : EntityRemote)
    (d ln : Value) (vals : List (String × String))
    (hd : pyGet e "_deleted" = some d)
    (hskip : (truthy d && !cfg.processDeleted) = false)
    (hln : pyGet e cfg.listNameKey = some ln)
    (hvals : valuesToSend e = .ok vals) :
    (∀ l p, RemoteCall.create l p ∈ (processEntity cfg e r).1 →
        l = ln ∧ p = itemProperties (metadataProps cfg e) vals) ∧
    (∀ l i p, RemoteCall.update l i p ∈ (processEntity cfg e r).1 →
        l = ln ∧ i = pyGetD e "ID" ∧ p = vals) := by
  rw [processEntity_eq cfg e r d ln hd hskip hln]
  by_cases htid : truthy (pyGetD e "ID") = true
  · cases hpr : r.probe with
    | found =>
      by_cases hsd : (!(isNull (pyGetD e "SHOULD_DELETE")) &&
          truthy (pyGetD e "SHOULD_DELETE")) = true
      · constructor
        · intro l p hmem
          simp [reconcileTry, hvals, probeStep, htid, hpr, branchStep, hsd] at hmem
        · intro l i p hmem
          simp [reconcileTry, hvals, probeStep, htid, hpr, branchStep, hsd] at hmem
      · simp only [Bool.not_eq_true] at hsd
        constructor
        · intro l p hmem
          simp [reconcileTry, hvals, probeStep, htid, hpr, branchStep, hsd] at hmem
        · intro l i p hmem
          simp [reconcileTry, hvals, probeStep, htid, hpr, branchStep, hsd] at hmem
          exact hmem
    | exc ex =>
      by_cases hnf : isNotFound ex = true
      · constructor
        · intro l p hmem
          simp [reconcileTry, hvals, probeStep, htid, hpr, hnf, branchStep] at hmem
          exact hmem
        · intro l i p hmem
          simp [reconcileTry, hvals, probeStep, htid, hpr, hnf, branchStep] at hmem
      · simp only [Bool.not_eq_true] at hnf
        constructor
        · intro l p hmem
          simp [reconcileTry, hvals, probeStep, htid, hpr, hnf, branchStep] at hmem
        · intro l i p hmem
          simp [reconcileTry, hvals, probeStep, htid, hpr, hnf, branchStep] at hmem
  · simp only [Bool.not_eq_true] at htid
    constructor
    · intro l p hmem
      simp [reconcileTry, hvals, probeStep, htid, branchStep] at hmem
      exact hmem
    · intro l i p hmem
      simp [reconcileTry, hvals, probeStep, htid, branchStep] at hmem

/-- A projected entry's key is one of the `Keys`. -/
theorem mem_specProjection_fst (e : Entity) (ks : List String)
    (kv : String × String) (h : kv ∈ specProjection e ks) : kv.1 ∈ ks := by
  simp only [specProjection, List.mem_map] at h
  rcases h with ⟨a, ha, rfl⟩
  exact ha

/-- The metadata dict is empty or the single `__metadata` entry. -/
theorem metadataProps_shape (cfg : Config) (e : Entity) :
    metadataProps cfg e = [] ∨
      ∃ v, metadataProps cfg e = [("__metadata", PropValue.metaType v)] := by
  cases hv : pyGetD e cfg.listItemKey with
  | vNull => exact Or.inl (by simp [metadataProps, hv])
  | vBool b => exact Or.inr ⟨.vBool b, by simp [metadataProps, hv]⟩
  | vInt n => exact Or.inr ⟨.vInt n, by simp [metadataProps, hv]⟩
  | vStr s => exact Or.inr ⟨.vStr s, by simp [metadataProps, hv]⟩
  | vList xs => exact Or.inr ⟨.vList xs, by simp [metadataProps, hv]⟩

/-- Every key of the metadata dict is `__metadata`. -/
theorem metadataProps_fst_mem (cfg : Config) (e : Entity) (s : String)
    (h : s ∈ (metadataProps cfg e).map Prod.fst) : s = "__metadata" := by
  rcases metadataProps_shape cfg e with hs | ⟨v, hs⟩ <;> rw [hs] at h <;> simp at h
  exact h

/-! ## Claims -/

/-- C1: for every entity in a send-to-list batch, the reconciler dispatches
exactly one remote mutation according to the table: no existing item (falsy
`ID`, or the probe confirmed absence) → create, never update/delete,
regardless of `SHOULD_DELETE`; existing item and `SHOULD_DELETE` true or
`"true"` → delete, never update; existing item and `SHOULD_DELETE` false or
absent → update. -/
theorem c1_dispatch_table (cfg : Config) (e : Entity) (r : EntityRemote)
    (d ln : Value) (vals : List (String × String))
    (hd : pyGet e "_deleted" = some d)
    (hskip : (truthy d && !cfg.processDeleted) = false)
    (hln : pyGet e cfg.listNameKey = some ln)
    (hvals : valuesToSend e = .ok vals) :
    (truthy (pyGetD e "ID") = false →
      mutationsOf (processEntity cfg e r).1 =
        [.create ln (itemProperties (metadataProps cfg e) vals)]) ∧
    (∀ ex, truthy (pyGetD e "ID") = true → r.probe = .exc ex → isNotFound ex = true →
      mutationsOf (processEntity cfg e r).1 =
        [.create ln (itemProperties (metadataProps cfg e) vals)]) ∧
    (truthy (pyGetD e "ID") = true → r.probe = .found →
      (pyGetD e "SHOULD_DELETE" = .vBool true ∨ pyGetD e "SHOULD_DELETE" = .vStr "true") →
      mutationsOf (processEntity cfg e r).1 = [.delete ln (pyGetD e "ID")]) ∧
    (truthy (pyGetD e "ID") = true → r.probe = .found →
      (pyGetD e "SHOULD_DELETE" = .vBool false ∨ pyGetD e "SHOULD_DELETE" = .vNull) →
      mutationsOf (processEntity cfg e r).1 = [.update ln (pyGetD e "ID") vals]) := by
  rw [processEntity_eq cfg e r d ln hd hskip hln]
  refine ⟨?_, ?_, ?_, ?_⟩
  · intro hid
    simp [reconcileTry, hvals, probeStep, hid, branchStep, mutationsOf, isMutation]
  · intro ex hid hpr hnf
    simp [reconcileTry, hvals, probeStep, hid, hpr, hnf, branchStep, mutationsOf, isMutation]
  · intro hid hpr hsd
    have hsd' : (!(isNull (pyGetD e "SHOULD_DELETE")) && truthy (pyGetD e "SHOULD_DELETE"))
        = true := by
      rcases hsd with h | h <;> rw [h] <;> rfl
    simp [reconcileTry, hvals, probeStep, hid, hpr, branchStep, hsd', mutationsOf, isMutation]
  · intro hid hpr hsd
    have hsd' : (!(isNull (pyGetD e "SHOULD_DELETE")) && truthy (pyGetD e "SHOULD_DELETE"))
        = false := by
      rcases hsd with h | h <;> rw [h] <;> rfl
    simp [reconcileTry, hvals, probeStep, hid, hpr, branchStep, hsd', mutationsOf, isMutation]

/-- C1 witness: existing item 7 with `SHOULD_DELETE: true` dispatches exactly
one delete, no update. -/
theorem c1_dispatch_table_witness :
    mutationsOf (processEntity defaultConfig entShouldDelete remoteFound).1 =
      [.delete (.vStr "Tasks") (.vInt 7)] := by
  have h := (c1_dispatch_table defaultConfig entShouldDelete remoteFound (.vBool false)
    (.vStr "Tasks") [("Title", "B")] rfl rfl rfl rfl).2.2.1 rfl rfl (Or.inl rfl)
  exact h

/-- C2: the outbound property mapping is exactly the projection of the entity
over its `Keys` list with every value string-coerced; no field outside `Keys`
is transmitted (the `__metadata` discriminator apart), and the `__metadata`
entry — present exactly when `ListItemEntityTypeFullName` is given — appears
on the create path and never on the update path. -/
theorem c2_outbound_projection (cfg : Config) (e : Entity) (r : EntityRemote)
    (d ln : Value) (ks : List String) (vals : List (String × String))
    (hd : pyGet e "_deleted" = some d)
    (hskip : (truthy d && !cfg.processDeleted) = false)
    (hln : pyGet e cfg.listNameKey = some ln)
    (hkeys : pyGet e "Keys" = some (.vList (ks.map .vStr)))
    (hvals : buildValues e (ks.map .vStr) [] = .ok vals)
    (hnodup : ks.Nodup)
    (hmeta : "__metadata" ∉ ks) :
    vals = specProjection e ks ∧
    (∀ l i p, RemoteCall.update l i p ∈ (processEntity cfg e r).1 →
        p = specProjection e ks) ∧
    (∀ l p, RemoteCall.create l p ∈ (processEntity cfg e r).1 →
        p = metadataProps cfg e ++
          (specProjection e ks).map (fun kv => (kv.1, PropValue.strVal kv.2))) ∧
    (∀ l p, RemoteCall.create l p ∈ (processEntity cfg e r).1 →
        ∀ kv ∈ p, kv.1 ∈ ks ∨ kv.1 = "__metadata") ∧
    (∀ l i p, RemoteCall.update l i p ∈ (processEntity cfg e r).1 →
        ∀ kv ∈ p, kv.1 ∈ ks) ∧
    (∀ l p, RemoteCall.create l p ∈ (processEntity cfg e r).1 →
        ((∃ pv, ("__metadata", pv) ∈ p) ↔ isNull (pyGetD e cfg.listItemKey) = false)) ∧
    (∀ l i p, RemoteCall.update l i p ∈ (processEntity cfg e r).1 →
        ∀ s, ("__metadata", s) ∉ p) := by
  have hvals' : valuesToSend e = .ok vals := by
    rw [valuesToSend, hkeys]
    exact hvals
  have hproj : vals = specProjection e ks := buildValues_ok_eq_nil e ks vals hnodup hvals
  have htp := trace_payloads cfg e r d ln vals hd hskip hln hvals'
  have hitem : itemProperties (metadataProps cfg e) vals =
      metadataProps cfg e ++
        (specProjection e ks).map (fun kv => (kv.1, PropValue.strVal kv.2)) := by
    rw [hproj]
    apply itemProperties_append
    · rw [specProjection_fst]
      exact hnodup
    · intro kv hkv hmem
      have h1 : kv.1 ∈ ks := mem_specProjection_fst e ks kv hkv
      have h2 : kv.1 = "__metadata" := metadataProps_fst_mem cfg e kv.1 hmem
      exact hmeta (h2 ▸ h1)
  refine ⟨hproj, ?_, ?_, ?_, ?_, ?_, ?_⟩
  · intro l i p hmem
    rw [(htp.2 l i p hmem).2.2]
    exact hproj
  · intro l p hmem
    rw [(htp.1 l p hmem).2]
    exact hitem
  · intro l p hmem kv hkv
    rw [(htp.1 l p hmem).2, hitem] at hkv
    rcases List.mem_append.mp hkv with hm | hm
    · exact Or.inr (metadataProps_fst_mem cfg e kv.1 (List.mem_map_of_mem Prod.fst hm))
    · rcases List.mem_map.mp hm with ⟨kv0, hkv0, rfl⟩
      exact Or.inl (mem_specProjection_fst e ks kv0 hkv0)
  · intro l i p hmem kv hkv
    rw [(htp.2 l i p hmem).2.2, hproj] at hkv
    exact mem_specProjection_fst e ks kv hkv
  · intro l p hmem
    rw [(htp.1 l p hmem).2, hitem]
    constructor
    · rintro ⟨pv, hpv⟩
      rcases List.mem_append.mp hpv with hm | hm
      · have hne : metadataProps cfg e ≠ [] := by
          intro h0
          rw [h0] at hm
          simp at hm
        cases hb : isNull (pyGetD e cfg.listItemKey) with
        | false => rfl
        | true =>
          exact absurd (metadataProps_of_null cfg e ((isNull_iff _).mp hb)) hne
      · rcases List.mem_map.mp hm with ⟨kv0, hkv0, hkv0eq⟩
        have : kv0.1 = "__metadata" := congrArg Prod.fst hkv0eq
        exact absurd (this ▸ mem_specProjection_fst e ks kv0 hkv0) hmeta
    · intro hnn
      rw [metadataProps_of_nonnull cfg e hnn]
      exact ⟨PropValue.metaType (pyGetD e cfg.listItemKey), by simp⟩
  · intro l i p hmem s hsp
    rw [(htp.2 l i p hmem).2.2, hproj] at hsp
    exact hmeta (mem_specProjection_fst e ks ("__metadata", s) hsp)

/-- C2 witness: with discriminator given, `Keys = [Title, Num]` and an extra
field, the create payload is exactly the metadata entry plus the
string-coerced projection, and nothing else. -/
theorem c2_outbound_projection_witness :
    [("Title", "A"), ("Num", "3")] = specProjection entProj ["Title", "Num"] ∧
    (∀ l i p, RemoteCall.update l i p ∈ (processEntity defaultConfig entProj remoteFound).1 →
        p = specProjection entProj ["Title", "Num"]) ∧
    (∀ l p, RemoteCall.create l p ∈ (processEntity defaultConfig entProj remoteFound).1 →
        p = metadataProps defaultConfig entProj ++
          (specProjection entProj ["Title", "Num"]).map
            (fun kv => (kv.1, PropValue.strVal kv.2))) ∧
    (∀ l p, RemoteCall.create l p ∈ (processEntity defaultConfig entProj remoteFound).1 →
        ∀ kv ∈ p, kv.1 ∈ ["Title", "Num"] ∨ kv.1 = "__metadata") ∧
    (∀ l i p, RemoteCall.update l i p ∈ (processEntity defaultConfig entProj remoteFound).1 →
        ∀ kv ∈ p, kv.1 ∈ ["Title", "Num"]) ∧
    (∀ l p, RemoteCall.create l p ∈ (processEntity defaultConfig entProj remoteFound).1 →
        ((∃ pv, ("__metadata", pv) ∈ p) ↔
          isNull (pyGetD entProj defaultConfig.listItemKey) = false)) ∧
    (∀ l i p, RemoteCall.update l i p ∈ (processEntity defaultConfig entProj remoteFound).1 →
        ∀ s, ("__metadata", s) ∉ p) :=
  c2_outbound_projection defaultConfig entProj remoteFound
    (.vBool false) (.vStr "Tasks") ["Title", "Num"] [("Title", "A"), ("Num", "3")]
    rfl rfl rfl rfl rfl (by decide) (by decide)

/-- C3: for every entity with a truthy `ID` whose existence probe fails, the
failure is treated as "no existing item" (falling through to create) exactly
when the exception carries the not-found code or not-found message; any other
probe failure becomes a hard error for the entity, wrapped with the entity as
context, and no mutation is attempted. -/
theorem c3_probe_error_classification (cfg : Config) (e : Entity) (r : EntityRemote)
    (d ln : Value) (vals : List (String × String)) (ex : ProbeExc)
    (hd : pyGet e "_deleted" = some d)
    (hskip : (truthy d && !cfg.processDeleted) = false)
    (hln : pyGet e cfg.listNameKey = some ln)
    (hvals : valuesToSend e = .ok vals)
    (hid : truthy (pyGetD e "ID") = true)
    (hpr : r.probe = .exc ex) :
    ((ex.code = some notFoundCode ∨ ex.message = some notFoundMessage) →
      processEntity cfg e r =
        ([.probe ln (pyGetD e "ID"),
          .create ln (itemProperties (metadataProps cfg e) vals)],
         if r.createOk then none else some (.aggregated .createFailed e))) ∧
    (¬(ex.code = some notFoundCode ∨ ex.message = some notFoundMessage) →
      processEntity cfg e r =
        ([.probe ln (pyGetD e "ID")],
         some (.aggregated (.probeFailure ex) e))) := by
  rw [processEntity_eq cfg e r d ln hd hskip hln]
  constructor
  · intro h
    have hnf : isNotFound ex = true := by simpa [isNotFound] using h
    simp only [reconcileTry, hvals, probeStep, hid, hpr, hnf, branchStep]
    cases r.createOk <;> simp
  · intro h
    have hnf : isNotFound ex = false := by simpa [isNotFound] using h
    simp [reconcileTry, hvals, probeStep, hid, hpr, hnf]

/-- C3 witness: on entity 7 the recognised not-found code falls through to a
create, while an unrecognised probe error aborts the entity with the wrapped
probe failure and no mutation. -/
theorem c3_probe_error_classification_witness :
    processEntity defaultConfig entWithId remoteNotFound =
      ([.probe (.vStr "Tasks") (.vInt 7),
        .create (.vStr "Tasks")
          (itemProperties (metadataProps defaultConfig entWithId) [("Title", "A")])],
       none) ∧
    processEntity defaultConfig entWithId remoteProbeError =
      ([.probe (.vStr "Tasks") (.vInt 7)],
       some (.aggregated
         (.probeFailure { code := some "500, System.Net.WebException", message := none })
         entWithId)) := by
  constructor
  · exact (c3_probe_error_classification defaultConfig entWithId remoteNotFound
      (.vBool false) (.vStr "Tasks") [("Title", "A")]
      { code := some notFoundCode, message := none }
      rfl rfl rfl rfl rfl rfl).1 (Or.inl rfl)
  · exact (c3_probe_error_classification defaultConfig entWithId remoteProbeError
      (.vBool false) (.vStr "Tasks") [("Title", "A")]
      { code := some "500, System.Net.WebException", message := none }
      rfl rfl rfl rfl rfl rfl).2 (by decide)

/-- C4: the first entity whose reconciliation raises a hard error aborts the
entire remaining batch — the error is propagated as the single aggregated
exception embedding the original cause and the entity, entities after the
failing one are never attempted, entities before it keep their already-issued
calls, and the batch does not produce the 200 success response. -/
theorem c4_batch_abort (cfg : Config) (pre post : List (Entity × EntityRemote))
    (e : Entity) (r : EntityRemote) (cs : List RemoteCall) (cause : Cause)
    (hpre : ∀ p ∈ pre, (processEntity cfg p.1 p.2).2 = none)
    (hfail : processEntity cfg e r = (cs, some (.aggregated cause e))) :
    send_to_list cfg true (pre ++ (e, r) :: post) =
      ((pre.map (fun p => (processEntity cfg p.1 p.2).1)).flatten ++ cs,
       .exception (.aggregated cause e)) := by
  have h2 : runEntities cfg ((e, r) :: post) = (cs, some (.aggregated cause e)) := by
    simp [runEntities, hfail]
  simp [send_to_list, post_entities, runEntities_append_ok cfg pre ((e, r) :: post) hpre, h2]

/-- C4 witness: in a three-entity batch whose second entity is missing `Keys`,
only the first entity's create call is issued, the third entity is never
attempted, and the response is the aggregated exception, not 200. -/
theorem c4_batch_abort_witness :
    send_to_list defaultConfig true
        ([(entOk, remoteFound)] ++ (entNoKeys, remoteFound) :: [(entOk, remoteFound)]) =
      (([(entOk, remoteFound)].map
          (fun p => (processEntity defaultConfig p.1 p.2).1)).flatten ++ [],
       .exception (.aggregated (.keyError "Keys") entNoKeys)) := by
  exact c4_batch_abort defaultConfig [(entOk, remoteFound)] [(entOk, remoteFound)]
    entNoKeys remoteFound [] (.keyError "Keys")
    (by intro p hp; rw [List.mem_singleton] at hp; subst hp; rfl) rfl

/-- C5 counterexample: a `_deleted`-truthy entity lacking `_id`, under the
flag turned off, is not skipped — the eagerly evaluated debug f-string's
`entity['_id']` subscript raises a bare `KeyError` outside the `try`, so the
batch aborts instead of proceeding to the next entity. -/
theorem c5_deleted_skip_counterexample :
    processEntity { defaultConfig with processDeleted := false } entDeletedNoId remoteFound
      = ([], some (.keyError "_id")) ∧
    ¬ (processEntity { defaultConfig with processDeleted := false } entDeletedNoId remoteFound
        = ([], none) ∧
       runEntities { defaultConfig with processDeleted := false }
           ((entDeletedNoId, remoteFound) :: [(entOk, remoteFound)])
         = runEntities { defaultConfig with processDeleted := false }
             [(entOk, remoteFound)]) := by
  refine ⟨rfl, ?_⟩
  rintro ⟨h, -⟩
  rw [show processEntity { defaultConfig with processDeleted := false }
      entDeletedNoId remoteFound = ([], some (Err.keyError "_id")) from rfl] at h
  simp at h

/-- C5 (amended): for every entity whose `_deleted` field is true and that
carries an `_id` field, when the deployment flag to process deleted entities
is off, no remote call of any kind is made for that entity and the batch
proceeds to the next entity — a recoverable skip, not an error.  (Without
`_id` the debug message's `entity['_id']` subscript raises a bare `KeyError`
before any remote call and aborts the batch, as the counterexample shows.) -/
theorem c5_deleted_skip (cfg : Config) (e : Entity) (r : EntityRemote)
    (rest : List (Entity × EntityRemote)) (d idv : Value)
    (hpd : cfg.processDeleted = false)
    (hd : pyGet e "_deleted" = some d)
    (ht : truthy d = true)
    (hid : pyGet e "_id" = some idv) :
    processEntity cfg e r = ([], none) ∧
    runEntities cfg ((e, r) :: rest) = runEntities cfg rest := by
  have h1 : processEntity cfg e r = ([], none) := by
    simp [processEntity, hd, ht, hpd, hid]
  refine ⟨h1, ?_⟩
  simp [runEntities, h1]

/-- C5 witness: a soft-deleted entity carrying `_id`, under
`PROCESS_DELETED_ENTITIES=false`, produces no remote call and the loop
continues with the rest of the batch. -/
theorem c5_deleted_skip_witness :
    processEntity { defaultConfig with processDeleted := false } entDeleted remoteFound
      = ([], none) ∧
    runEntities { defaultConfig with processDeleted := false }
        ((entDeleted, remoteFound) :: [(entOk, remoteFound)])
      = runEntities { defaultConfig with processDeleted := false } [(entOk, remoteFound)] :=
  c5_deleted_skip { defaultConfig with processDeleted := false } entDeleted remoteFound
    [(entOk, remoteFound)] (.vBool true) (.vStr "task-1") rfl rfl rfl rfl

/-- C6: for every entity whose `ID` field is present but falsy (0, empty
string, null), the existence probe is skipped entirely and reconciliation
takes the create path: the trace holds exactly one create, no probe call, and
it equals the trace obtained after removing the `ID` field altogether. -/
theorem c6_falsy_id_creates (cfg : Config) (e : Entity) (r : EntityRemote)
    (d ln idv : Value) (ks : List Value) (vals : List (String × String))
    (hd : pyGet e "_deleted" = some d)
    (hskip : (truthy d && !cfg.processDeleted) = false)
    (hln : pyGet e cfg.listNameKey = some ln)
    (hkeys : pyGet e "Keys" = some (.vList ks))
    (hvals : buildValues e ks [] = .ok vals)
    (hidp : pyGet e "ID" = some idv)
    (hfalsy : truthy idv = false)
    (hlnk : cfg.listNameKey ≠ "ID")
    (hlik : cfg.listItemKey ≠ "ID")
    (hksid : Value.vStr "ID" ∉ ks) :
    (processEntity cfg e r).1 =
      [.create ln (itemProperties (metadataProps cfg e) vals)] ∧
    (∀ l i, RemoteCall.probe l i ∉ (processEntity cfg e r).1) ∧
    (processEntity cfg e r).1 =
      (processEntity cfg (e.filter (fun kv => kv.1 != "ID")) r).1 := by
  have hvals' : valuesToSend e = .ok vals := by
    rw [valuesToSend, hkeys]
    exact hvals
  have htid : truthy (pyGetD e "ID") = false := by
    simp [pyGetD, hidp, hfalsy]
  have h1 : (processEntity cfg e r).1 =
      [.create ln (itemProperties (metadataProps cfg e) vals)] := by
    rw [processEntity_eq cfg e r d ln hd hskip hln]
    simp [reconcileTry, hvals', probeStep, htid, branchStep]
  refine ⟨h1, ?_, ?_⟩
  · intro l i hmem
    rw [h1] at hmem
    simp at hmem
  · have hd2 : pyGet (e.filter (fun kv => kv.1 != "ID")) "_deleted" = some d :=
      (pyGet_filterID e "_deleted" (by decide)).trans hd
    have hln2 : pyGet (e.filter (fun kv => kv.1 != "ID")) cfg.listNameKey = some ln :=
      (pyGet_filterID e cfg.listNameKey hlnk).trans hln
    have hvals2 : valuesToSend (e.filter (fun kv => kv.1 != "ID")) = .ok vals :=
      (valuesToSend_filterID e ks hkeys hksid).trans hvals'
    have htid2 : truthy (pyGetD (e.filter (fun kv => kv.1 != "ID")) "ID") = false := by
      simp [pyGetD, pyGet_filterID_id e, truthy]
    have hmeta2 : metadataProps cfg (e.filter (fun kv => kv.1 != "ID")) =
        metadataProps cfg e := by
      rw [metadataProps, metadataProps, pyGetD, pyGetD, pyGet_filterID e cfg.listItemKey hlik]
    rw [h1, processEntity_eq cfg (e.filter (fun kv => kv.1 != "ID")) r d ln hd2 hskip hln2]
    simp [reconcileTry, hvals2, probeStep, htid2, branchStep, hmeta2]

/-- C6 witness: `ID: 0` is present but falsy — one create, no probe, same
trace as the entity without the `ID` field. -/
theorem c6_falsy_id_creates_witness :
    (processEntity defaultConfig entFalsyId remoteFound).1 =
      [.create (.vStr "Tasks")
        (itemProperties (metadataProps defaultConfig entFalsyId) [("Title", "A")])] ∧
    (∀ l i, RemoteCall.probe l i ∉ (processEntity defaultConfig entFalsyId remoteFound).1) ∧
    (processEntity defaultConfig entFalsyId remoteFound).1 =
      (processEntity defaultConfig
        (entFalsyId.filter (fun kv => kv.1 != "ID")) remoteFound).1 :=
  c6_falsy_id_creates defaultConfig entFalsyId remoteFound
    (.vBool false) (.vStr "Tasks") (.vInt 0) [.vStr "Title"] [("Title", "A")]
    rfl rfl rfl rfl rfl rfl rfl (by decide) (by decide) (by simp)

/-- C7: for every entity that lacks the `_deleted` field, `send_to_list`
raises a `KeyError` when it reaches that entity, before any remote call for it
is made, and this aborts the whole remaining batch. -/
theorem c7_missing_deleted_key_error (cfg : Config)
    (pre post : List (Entity × EntityRemote)) (e : Entity) (r : EntityRemote)
    (hpre : ∀ p ∈ pre, (processEntity cfg p.1 p.2).2 = none)
    (hmiss : pyGet e "_deleted" = none) :
    processEntity cfg e r = ([], some (.keyError "_deleted")) ∧
    send_to_list cfg true (pre ++ (e, r) :: post) =
      ((pre.map (fun p => (processEntity cfg p.1 p.2).1)).flatten,
       .exception (.keyError "_deleted")) := by
  have h1 : processEntity cfg e r = ([], some (.keyError "_deleted")) := by
    simp [processEntity, hmiss]
  refine ⟨h1, ?_⟩
  have h2 : runEntities cfg ((e, r) :: post) = ([], some (.keyError "_deleted")) := by
    simp [runEntities, h1]
  simp [send_to_list, post_entities, runEntities_append_ok cfg pre ((e, r) :: post) hpre, h2]

/-- C7 witness: a batch whose second entity lacks `_deleted` aborts there —
only the first entity's create call happens, the third entity is never
attempted, and the escaping error is the bare `KeyError`. -/
theorem c7_missing_deleted_key_error_witness :
    processEntity defaultConfig entNoDeleted remoteFound
      = ([], some (.keyError "_deleted")) ∧
    send_to_list defaultConfig true
        ([(entOk, remoteFound)] ++ (entNoDeleted, remoteFound) :: [(entOk, remoteFound)]) =
      (([(entOk, remoteFound)].map
          (fun p => (processEntity defaultConfig p.1 p.2).1)).flatten,
       .exception (.keyError "_deleted")) :=
  c7_missing_deleted_key_error defaultConfig [(entOk, remoteFound)] [(entOk, remoteFound)]
    entNoDeleted remoteFound
    (by intro p hp; rw [List.mem_singleton] at hp; subst hp; rfl) rfl

/-- C9: if any of the remote base URL, username or password configuration
values is absent or empty at startup, the process exits immediately with a
fatal error and never goes on to bind a listener. -/
theorem c9_startup_guard (url username password : Option String) (port : Nat)
    (h : url = none ∨ url = some "" ∨ username = none ∨ username = some "" ∨
         password = none ∨ password = some "") :
    startup url username password port = .exitFatal 1 := by
  rcases h with h | h | h | h | h | h <;> subst h <;> simp [startup, strFalsy]

/-- C9 witness: with the URL unset the process exits fatally before
listening. -/
theorem c9_startup_guard_witness :
    startup none (some "user") (some "secret") 5000 = .exitFatal 1 :=
  c9_startup_guard none (some "user") (some "secret") 5000 (Or.inl rfl)

/-- C8: for every list read, the reader requests at most the configured page
cap (`LIST_SIZE`) items and emits them as a single JSON array, one chunk at a
time with comma separators; items beyond the cap are silently omitted — the
emitted items are exactly the first `min cap n` of the remote collection. -/
theorem c8_page_cap (cap : Nat) (collection : List Entity) :
    get_from_list cap true collection =
      .stream (["["] ++
        List.intersperse "," ((collection.take cap).map jsonDumps) ++ ["]"]) ∧
    ((collection.take cap).map jsonDumps).length ≤ cap := by
  constructor
  · simp [get_from_list, generate, top, generateBody_zero]
  · simp [List.length_take]

/-- C10: when authentication fails in `get-site-users`, the handler reaches
the response-construction step with `user_col` never having been assigned and
raises an uninitialized-reference error instead of returning an explicit error
response. -/
theorem c10_site_users_unbound_local (siteUsers : List Entity) :
    get_site_users false siteUsers = .unboundLocal "user_col" := by
  simp [get_site_users]

end SpService
